import Mathlib

/-!
# Verification of the unifi-rpc power-control gateway

A shallow embedding, in Lean 4, of the power-control core of the
`ubiquiti-community/unifi-rpc` repository: the CLI output parser
(`pkg/client/unifi.go`), the SSH-CLI power client, the controller-API
power functions (`pkg/api/service.go` and the legacy `pkg/rpc/service.go`),
the port addressor (`models.GetPort`) and the RPC dispatchers.

Machine integers are modelled as `Int` with the explicit int64 range check
that `strconv.Atoi` performs.  Fallible Go functions return `Except` or
`Option`; a Go runtime panic (index out of range) is modelled as a
distinguished result.  External collaborators (the SSH transport, the
controller HTTP client) are modelled by the values they return, exactly as
the code consumes them.
-/

namespace UnifiRpc

/-! ## Go string primitives

These mirror the behaviour of the Go standard library functions the code
uses, restricted to the ASCII character set that the modelled switch CLI
and HTTP headers produce (the Unicode-only behaviour of `unicode.IsSpace`
on exotic code points and of `strings.ToLower` on non-ASCII letters is not
modelled). -/

/-- The ASCII cases of Go `unicode.IsSpace`: space, tab, newline, vertical
tab, form feed, carriage return. -/
def goIsSpace (c : Char) : Bool :=
  c = ' ' || c = '\t' || c = '\n' || c = '\x0b' || c = '\x0c' || c = '\r'

/-- Go `strings.TrimSpace` on a character list: drop leading and trailing
white space. -/
def goTrimSpace (l : List Char) : List Char :=
  ((l.dropWhile goIsSpace).reverse.dropWhile goIsSpace).reverse

/-- Go `strings.Split(s, sep)` for a one-character separator: the pieces
between occurrences of `sep`; always at least one piece. -/
def splitOnChar (sep : Char) : List Char → List (List Char)
  | [] => [[]]
  | c :: cs =>
    let rest := splitOnChar sep cs
    if c = sep then [] :: rest
    else match rest with
      | [] => [[c]]
      | r :: rs => (c :: r) :: rs

/-- Go `strings.Contains(s, sub)`: some contiguous run of `s` equals `sub`. -/
def containsSeq (s sub : List Char) : Bool :=
  match s with
  | [] => sub.isEmpty
  | _ :: tl => sub.isPrefixOf s || containsSeq tl sub

/-- Go `strings.ToLower` restricted to ASCII letters. -/
def goToLower (l : List Char) : List Char :=
  l.map fun c => if 'A' ≤ c ∧ c ≤ 'Z' then Char.ofNat (c.toNat + 32) else c

/-- Decimal digit accumulation for `goAtoi`; `none` when a non-digit is hit. -/
def digitsValAux (acc : Nat) : List Char → Option Nat
  | [] => some acc
  | c :: cs =>
    if '0' ≤ c ∧ c ≤ '9' then digitsValAux (acc * 10 + (c.toNat - 48)) cs
    else none

/-- Go `strconv.Atoi` (base 10, 64-bit): optional sign, a non-empty run of
ASCII digits, and the int64 range check that makes huge literals fail with
`ErrRange`. -/
def goAtoi (l : List Char) : Option Int :=
  let core : List Char → Bool → Option Int := fun ds neg =>
    match ds with
    | [] => none
    | _ :: _ =>
      match digitsValAux 0 ds with
      | none => none
      | some n =>
        if neg then if n ≤ 9223372036854775808 then some (-(n : Int)) else none
        else if n ≤ 9223372036854775807 then some (n : Int) else none
  match l with
  | '+' :: rest => core rest false
  | '-' :: rest => core rest true
  | _ => core l false

/-! ## The CLI output parser (`pkg/client/unifi.go`) -/

/-- `PowerState` from `pkg/client/unifi.go`, constructors in the source's
iota order. -/
inductive PowerState where
  | PowerOff
  | PowerOn
  | PoweringOff
  | PoweringOn
deriving DecidableEq

/-- `PoEPortStatus` from `pkg/client/unifi.go`.  The three
`strconv.ParseFloat` fields (`PowerWatts`, `VoltageV`, `CurrentMA`) are
kept as the raw tokens the source passes to `ParseFloat`: no claim depends
on the rounded float64 value, a failed conversion is swallowed by the
source (`if err == nil`), and the panic studied below happens while
evaluating the indexing expression, before any conversion of that token. -/
structure PoEPortStatus where
  Port : Int
  OpMode : String
  HpMode : String
  PwrLimit : Int
  Class : String
  PoEPwr : String
  PwrGood : String
  PowerWatts : String
  VoltageV : String
  CurrentMA : String
deriving DecidableEq

/-- `PoEStatus` from `pkg/client/unifi.go`. -/
structure PoEStatus where
  TotalPowerLimit : Int
  Ports : List PoEPortStatus
deriving DecidableEq

/-- The outcomes of `parsePoEStatus`: success, its three distinct error
returns (`insufficient output lines`, `could not find data section in
output`, `no port data found in output`), and the Go runtime panic an
out-of-range slice index raises. -/
inductive ParseResult where
  | ok (status : PoEStatus)
  | insufficientLines
  | malformedOutput
  | emptyResult
  | panicked
deriving DecidableEq

/-- The fields `encoding/csv` yields for one already-trimmed line under the
source's reader configuration (`Comma = ' '`, `TrimLeadingSpace`,
`LazyQuotes`, variable field count): at each field boundary leading white
space is dropped, then the field runs to the next space character.  The
`LazyQuotes` processing of a `"` character is not modelled (the modelled
switch output contains none); a quote is treated as an ordinary character.
The boolean argument is the at-field-start state in which leading white
space is consumed; the accumulator holds the current field reversed. -/
def csvFieldsAux : List Char → List Char → Bool → List String
  | [], _, true => [""]
  | [], acc, false => [String.mk acc.reverse]
  | c :: cs, acc, true =>
    if goIsSpace c then csvFieldsAux cs acc true
    else csvFieldsAux cs (c :: acc) false
  | c :: cs, acc, false =>
    if c = ' ' then String.mk acc.reverse :: csvFieldsAux cs [] true
    else csvFieldsAux cs (c :: acc) false

def csvSpaceFields (l : List Char) : List String := csvFieldsAux l [] true

/-- The positional field mapping of the data-row loop of `parsePoEStatus`:
`some none` when the row is skipped (fewer than 10 non-empty fields),
`some (some r)` when a record is appended, and `none` for the Go runtime
panic: after the `Class` token absorbs the following token, the
milliamps token is read at index `classIdx + 5 = 10`, which is out of
range on a row of exactly 10 fields. -/
def parseFields (fields : List String) : Option (Option PoEPortStatus) :=
  if fields.length < 10 then some none
  else
    let portN := match goAtoi (fields.getD 0 "").data with
      | some v => v
      | none => 0
    let pwrLimit := match goAtoi (fields.getD 3 "").data with
      | some v => v
      | none => 0
    let cls0 := fields.getD 4 ""
    if cls0.data.take 5 = "Class".data then
        -- two-token class name: `classIdx` becomes 5 (the `classIdx+1 <
        -- len` guard always holds here since the row has ≥ 10 fields)
        if 10 < fields.length then
          some (some {
            Port := portN, OpMode := fields.getD 1 "", HpMode := fields.getD 2 "",
            PwrLimit := pwrLimit,
            Class := cls0 ++ " " ++ fields.getD 5 "",
            PoEPwr := fields.getD 6 "", PwrGood := fields.getD 7 "",
            PowerWatts := fields.getD 8 "", VoltageV := fields.getD 9 "",
            CurrentMA := fields.getD 10 "" })
        else none
      else
        some (some {
          Port := portN, OpMode := fields.getD 1 "", HpMode := fields.getD 2 "",
          PwrLimit := pwrLimit,
          Class := cls0,
          PoEPwr := fields.getD 5 "", PwrGood := fields.getD 6 "",
          PowerWatts := fields.getD 7 "", VoltageV := fields.getD 8 "",
          CurrentMA := fields.getD 9 "" })

/-- One iteration of the data-row loop on a raw line: trim, skip a blank
line, otherwise extract the CSV fields, drop the empty ones and hand them
to `parseFields`. -/
def parseDataLine (line : List Char) : Option (Option PoEPortStatus) :=
  let t := goTrimSpace line
  if t = [] then some none
  else parseFields ((csvSpaceFields t).filter (· ≠ ""))

/-- The data-row loop: fold `parseDataLine` over the lines after the
separator, stopping the whole parse on a panic. -/
def parseRows : List (List Char) → Option (List PoEPortStatus)
  | [] => some []
  | line :: rest =>
    match parseDataLine line with
    | none => none
    | some none => parseRows rest
    | some (some r) =>
      match parseRows rest with
      | none => none
      | some rs => some (r :: rs)

/-- The total-power-limit scan of `parsePoEStatus`: the first line
containing `Total Power Limit`, split on `:`; exactly two parts and a
successful `Atoi` of the trimmed remainder set the total, anything else
leaves it zero. -/
def findTotalLimit (lines : List (List Char)) : Int :=
  match lines.find? (fun l => containsSeq l "Total Power Limit".data) with
  | none => 0
  | some line =>
    match splitOnChar ':' line with
    | [_, b] =>
      match goAtoi (goTrimSpace b) with
      | some v => v
      | none => 0
    | _ => 0

/-- The separator scan of `parsePoEStatus`: index of the first line whose
trimmed form starts with `----`. -/
def findSepIdx (lines : List (List Char)) : Option Nat :=
  lines.findIdx? (fun l => "----".data.isPrefixOf (goTrimSpace l))

/-- `parsePoEStatus` from `pkg/client/unifi.go`: split on newlines, require
at least two lines, scan the total power limit, find the dash separator,
require data after it, then run the row loop; zero appended rows is the
`no port data found` error. -/
def parsePoEStatus (output : String) : ParseResult :=
  let lines := splitOnChar '\n' output.data
  if lines.length < 2 then .insufficientLines
  else
    let total := findTotalLimit lines
    match findSepIdx lines with
    | none => .malformedOutput
    | some i =>
      if lines.length ≤ i + 1 then .malformedOutput
      else
        match parseRows (lines.drop (i + 1)) with
        | none => .panicked
        | some ports =>
          if ports.isEmpty then .emptyResult
          else .ok { TotalPowerLimit := total, Ports := ports }

/-- Claim-level predicate, independent of the parser's control flow: some
line of the input is a separator row, i.e. its trimmed form starts with
four dashes. -/
def hasSeparatorLine (s : String) : Bool :=
  (splitOnChar '\n' s.data).any (fun l => "----".data.isPrefixOf (goTrimSpace l))

theorem splitOnChar_length (sep : Char) (l : List Char) :
    (splitOnChar sep l).length = l.count sep + 1 := by
  induction l with
  | nil => simp [splitOnChar]
  | cons c cs ih =>
    rw [splitOnChar]
    by_cases hc : c = sep
    · simp [hc, List.count_cons, ih]
    · have hne : (cs.count sep + 1 : Nat) ≠ 0 := by omega
      rw [← ih] at hne
      simp only [hc, if_false]
      match hrest : splitOnChar sep cs with
      | [] => rw [hrest] at hne; simp at hne
      | r :: rs =>
        rw [hrest] at ih
        simp only [List.length_cons] at ih ⊢
        rw [List.count_cons]
        simp [hc, ih]

theorem findIdx?_eq_none_of_any_false {α : Type} (p : α → Bool) (l : List α)
    (h : l.any p = false) : l.findIdx? p = none := by
  rw [List.findIdx?_eq_none_iff]
  intro x hx
  exact Bool.eq_false_iff.mpr ((List.any_eq_false.mp h) x hx)

/-- C1.  The claim says every data row of at least 10 non-empty
whitespace-separated tokens yields a status record, with the `Class` token
absorbing its successor and shifting the later positions.  The code slips:
after the shift it reads the milliamps token at index `classIdx + 5 = 10`
without a bounds check, so a row of exactly 10 fields whose class token
starts with `Class` makes the Go runtime panic with an index out of range
instead of producing a record.  This theorem evaluates the parser at such
an input: the row below has exactly 10 non-empty fields and its fifth
field starts with `Class`, and the whole parse aborts in the panic state. -/
theorem c1_parser_panics_on_ten_field_class_row :
    parsePoEStatus "h\n----\n1 Auto Dot3at 32000 Class4 On Good 5.0 53.0 104" = .panicked ∧
    ((csvSpaceFields
        (goTrimSpace "1 Auto Dot3at 32000 Class4 On Good 5.0 53.0 104".data)).filter
      (· ≠ "")).length = 10 ∧
    ("Class".data.take 5).isPrefixOf "Class4".data = true := by
  decide

/-- C2, counterexamples.  The claim says a malformed-output failure occurs
exactly when no separator row exists, and an empty-result failure whenever
a separator exists but zero rows are appended.  Both directions fail:
`"a\n----"` has a separator row (and appends zero rows) yet fails with the
malformed-output error, because the separator is the last line; and
`"abc"` has no separator row yet fails with the distinct
insufficient-output-lines error, because the input has no newline. -/
theorem c2_error_classification_counterexample :
    hasSeparatorLine "a\n----" = true ∧
    parsePoEStatus "a\n----" = .malformedOutput ∧
    parsePoEStatus "a\n----" ≠ .emptyResult ∧
    hasSeparatorLine "abc" = false ∧
    parsePoEStatus "abc" = .insufficientLines ∧
    parsePoEStatus "abc" ≠ .malformedOutput := by
  decide

/-- C2, amended.  The parser fails with the insufficient-output error when
the input contains no newline at all; with the malformed-output error when
it has a newline but no separator row, or when the first separator row is
the last line; and with the empty-result error when data lines follow the
first separator but none of them is appended; a row with fewer than 10
non-empty fields is always skipped without failing the parse. -/
theorem c2_error_classification (s : String) :
    (¬ ('\n' ∈ s.data) → parsePoEStatus s = .insufficientLines) ∧
    ('\n' ∈ s.data → hasSeparatorLine s = false → parsePoEStatus s = .malformedOutput) ∧
    ('\n' ∈ s.data → ∀ i, findSepIdx (splitOnChar '\n' s.data) = some i →
      (splitOnChar '\n' s.data).length ≤ i + 1 → parsePoEStatus s = .malformedOutput) ∧
    (∀ i, findSepIdx (splitOnChar '\n' s.data) = some i →
      i + 1 < (splitOnChar '\n' s.data).length →
      parseRows ((splitOnChar '\n' s.data).drop (i + 1)) = some [] →
      parsePoEStatus s = .emptyResult) ∧
    (∀ line : List Char,
      ((csvSpaceFields (goTrimSpace line)).filter (· ≠ "")).length < 10 →
      parseDataLine line = some none) := by
  have hlen : (splitOnChar '\n' s.data).length = s.data.count '\n' + 1 :=
    splitOnChar_length '\n' s.data
  refine ⟨?_, ?_, ?_, ?_, ?_⟩
  · intro hmem
    have hc : s.data.count '\n' = 0 := List.count_eq_zero.mpr hmem
    have h2 : (splitOnChar '\n' s.data).length < 2 := by omega
    simp only [parsePoEStatus, if_pos h2]
  · intro hmem hsep
    have hc : 0 < s.data.count '\n' := List.count_pos_iff.mpr hmem
    have h2 : ¬ ((splitOnChar '\n' s.data).length < 2) := by omega
    have hnone : findSepIdx (splitOnChar '\n' s.data) = none := by
      rw [findSepIdx]
      rw [hasSeparatorLine] at hsep
      exact findIdx?_eq_none_of_any_false _ _ hsep
    simp only [parsePoEStatus, if_neg h2, hnone]
  · intro hmem i hfind hlast
    have hc : 0 < s.data.count '\n' := List.count_pos_iff.mpr hmem
    have h2 : ¬ ((splitOnChar '\n' s.data).length < 2) := by omega
    simp only [parsePoEStatus, if_neg h2, hfind]
    rw [if_pos hlast]
  · intro i hfind hlt hrows
    have h2 : ¬ ((splitOnChar '\n' s.data).length < 2) := by omega
    have hnotlast : ¬ ((splitOnChar '\n' s.data).length ≤ i + 1) := by omega
    simp only [parsePoEStatus, if_neg h2, hfind, if_neg hnotlast, hrows]
    rfl
  · intro line hshort
    rw [parseDataLine]
    split
    · rfl
    · simp only [parseFields, if_pos hshort]

instance {ε α : Type} [DecidableEq ε] [DecidableEq α] : DecidableEq (Except ε α) :=
  fun x y =>
    match x, y with
    | .error a, .error b =>
      decidable_of_iff (a = b) ⟨fun h => h ▸ rfl, fun h => by cases h; rfl⟩
    | .ok a, .ok b =>
      decidable_of_iff (a = b) ⟨fun h => h ▸ rfl, fun h => by cases h; rfl⟩
    | .error _, .ok _ => isFalse fun h => Except.noConfusion h
    | .ok _, .error _ => isFalse fun h => Except.noConfusion h

/-! ## The controller-API backend (`pkg/api/service.go`, controller
variant, and the legacy `pkg/rpc/service.go`)

The controller HTTP client is external (`go-unifi`): a successful
`GetDeviceByMAC` is modelled by the fetched device value itself, and
`UpdateDevice` by recording the device object submitted to it (the claims
below all condition on a successful fetch; a failed fetch returns the
wrapped error before any of the logic modelled here runs).  Only the two
fields of `unifi.DevicePortOverrides` the gateway reads or writes are
modelled. -/

/-- The two fields of `unifi.DevicePortOverrides` the gateway uses; the Go
zero value is `{ PortIDX := 0, PoeMode := "" }`. -/
structure DevicePortOverrides where
  PortIDX : Int
  PoeMode : String
deriving DecidableEq

/-- The fields of `unifi.Device` the gateway uses. -/
structure Device where
  ID : String
  PortOverrides : List DevicePortOverrides
deriving DecidableEq

/-- `rpcService.getPort` (`pkg/api/service.go:54`, identical in
`pkg/rpc/service.go:24`): parse the port header text, then scan the
fetched device's port overrides for the first record with that index; no
match leaves the Go zero-value record — a silent miss, not an error. -/
def getPort (dev : Device) (portIdx : String) :
    Except String (String × DevicePortOverrides) :=
  match goAtoi portIdx.data with
  | none => .error ("error getting integer value from port " ++ portIdx)
  | some p =>
    .ok (dev.ID, (dev.PortOverrides.find? (fun pd => pd.PortIDX == p)).getD ⟨0, ""⟩)

/-- `rpcService.isPoweredOn` (`pkg/api/service.go:144`): powered on means
the record's PoE mode equals `auto`. -/
def isPoweredOn (dev : Device) (portIdx : String) : Except String Bool :=
  match getPort dev portIdx with
  | .error e => .error e
  | .ok (_, port) => .ok (port.PoeMode == "auto")

/-- `rpcService.GetPower` (`pkg/api/service.go:163`): `on` when powered
on, `off` otherwise. -/
def GetPower (dev : Device) (portIdx : String) : Except String String :=
  match isPoweredOn dev portIdx with
  | .error e => .error e
  | .ok b => .ok (if b then "on" else "off")

/-- `bmcService.GetPower` (`pkg/rpc/service.go:90`), the legacy controller
variant: `state` starts as the zero-value empty string and is assigned
only for the modes `auto` and `off`, so any other mode (including the
zero-value record of a silent miss) is returned as the empty string. -/
def rpcGetPower (dev : Device) (portIdx : String) : Except String String :=
  match getPort dev portIdx with
  | .error e => .error e
  | .ok (_, port) =>
    .ok (if port.PoeMode == "auto" then "on"
         else if port.PoeMode == "off" then "off" else "")

/-- C3, counterexample.  The claim says the resulting state is `off` for
every mode other than `auto`, including the empty one, for every
controller-variant `GetPowerState`.  The legacy `bmcService.GetPower`
(`pkg/rpc/service.go:90`, named by the claim's sources) violates this: on
a device with no matching override the zero-value record's empty mode
falls through both assignments and the empty string is returned instead
of `off`. -/
theorem c3_rpc_get_power_counterexample :
    rpcGetPower ⟨"dev1", []⟩ "3" = .ok "" ∧
    (Device.mk "dev1" []).PortOverrides.find? (fun pd => pd.PortIDX == 3) = none ∧
    rpcGetPower ⟨"dev1", []⟩ "3" ≠ .ok "off" := by
  decide

/-- C3, amended.  For every device successfully fetched, both controller
variants scan the port-override list for the first record whose index
equals the requested port and use the zero-value record without error
when none matches; the `pkg/api` variant returns `on` exactly when the
record's mode is `auto` and `off` for every other mode including the
empty one, while the legacy `pkg/rpc` variant returns `on` for `auto`,
`off` for `off`, and the empty string for every other mode. -/
theorem c3_controller_get_power (dev : Device) (portIdx : String) (p : Int)
    (hp : goAtoi portIdx.data = some p) :
    (GetPower dev portIdx =
      .ok (if ((dev.PortOverrides.find? (fun pd => pd.PortIDX == p)).getD ⟨0, ""⟩).PoeMode = "auto"
        then "on" else "off")) ∧
    (dev.PortOverrides.find? (fun pd => pd.PortIDX == p) = none →
      getPort dev portIdx = .ok (dev.ID, ⟨0, ""⟩)) ∧
    (rpcGetPower dev portIdx =
      .ok (if ((dev.PortOverrides.find? (fun pd => pd.PortIDX == p)).getD ⟨0, ""⟩).PoeMode = "auto"
        then "on"
        else if ((dev.PortOverrides.find? (fun pd => pd.PortIDX == p)).getD ⟨0, ""⟩).PoeMode = "off"
        then "off" else "")) := by
  refine ⟨?_, ?_, ?_⟩
  · rw [GetPower, isPoweredOn, getPort, hp]
    simp only []
    by_cases h : ((dev.PortOverrides.find? (fun pd => pd.PortIDX == p)).getD ⟨0, ""⟩).PoeMode = "auto"
    · simp [h]
    · simp [h]
  · intro hnone
    simp only [getPort, hp, hnone]
    rfl
  · rw [rpcGetPower, getPort, hp]
    simp only []
    by_cases h : ((dev.PortOverrides.find? (fun pd => pd.PortIDX == p)).getD ⟨0, ""⟩).PoeMode = "auto"
    · simp [h]
    · by_cases h2 : ((dev.PortOverrides.find? (fun pd => pd.PortIDX == p)).getD ⟨0, ""⟩).PoeMode = "off"
      · simp [h, h2]
      · simp [h, h2]

/-- C3, witness: the amended theorem applied at a concrete device whose
port 3 override is `auto` and at one with no override for port 7. -/
theorem c3_controller_get_power_witness :
    GetPower ⟨"d", [⟨3, "auto"⟩]⟩ "3" = .ok "on" ∧
    GetPower ⟨"d", [⟨3, "auto"⟩]⟩ "7" = .ok "off" := by
  refine ⟨?_, ?_⟩
  · have h := (c3_controller_get_power ⟨"d", [⟨3, "auto"⟩]⟩ "3" 3 (by decide)).1
    rw [h]
    decide
  · have h := (c3_controller_get_power ⟨"d", [⟨3, "auto"⟩]⟩ "7" 7 (by decide)).1
    rw [h]
    decide

/-- The port-override scan of `rpcService.setPower`
(`pkg/api/service.go:101`): `none` models the early `return nil` taken
when the first matching record already carries the requested mode (no
update is submitted), `some l` the override list the function goes on to
submit; the `break` leaves everything after the first match untouched. -/
def setPowerLoop (p : Int) (state : Bool) :
    List DevicePortOverrides → Option (List DevicePortOverrides)
  | [] => some []
  | pd :: rest =>
    if pd.PortIDX == p then
      if state then
        if pd.PoeMode == "auto" then none
        else some ({ pd with PoeMode := "auto" } :: rest)
      else
        if pd.PoeMode == "off" then none
        else some ({ pd with PoeMode := "off" } :: rest)
    else (setPowerLoop p state rest).map (pd :: ·)

/-- `rpcService.setPower` (`pkg/api/service.go:85`): parse the port text,
scan the overrides, and either return with no write (`.ok none`) or
submit the entire device object in a single `UpdateDevice` call
(`.ok (some d)`, the update modelled as succeeding). -/
def setPower (dev : Device) (portIdx : String) (state : Bool) :
    Except String (Option Device) :=
  match goAtoi portIdx.data with
  | none => .error ("error getting integer value from port " ++ portIdx)
  | some p =>
    match setPowerLoop p state dev.PortOverrides with
    | none => .ok none
    | some l => .ok (some { dev with PortOverrides := l })

/-- `rpcService.setPortPower` (`pkg/api/service.go:127`): map the state
token to a boolean, rejecting everything but `on` and `off`. -/
def setPortPower (dev : Device) (portIdx : String) (state : String) :
    Except String (Option Device) :=
  if state == "on" then setPower dev portIdx true
  else if state == "off" then setPower dev portIdx false
  else .error ("invalid power state " ++ state)

/-- The override scan of the legacy `bmcService.setPortPower`
(`pkg/rpc/service.go:62`).  Its `break` statements sit inside a `switch`,
so they leave the switch and not the `for` loop: after mutating the first
match the scan continues, and a later record with the same index already
in the requested mode still triggers the early `return nil`, discarding
the mutation.  A state other than `on`/`off` matches no switch case and
the loop falls through to an unconditional `UpdateDevice`. -/
def rpcSetLoop (p : Int) (state : String) :
    List DevicePortOverrides → Option (List DevicePortOverrides)
  | [] => some []
  | pd :: rest =>
    if pd.PortIDX == p then
      if state == "on" then
        if pd.PoeMode == "auto" then none
        else (rpcSetLoop p state rest).map ({ pd with PoeMode := "auto" } :: ·)
      else if state == "off" then
        if pd.PoeMode == "off" then none
        else (rpcSetLoop p state rest).map ({ pd with PoeMode := "off" } :: ·)
      else (rpcSetLoop p state rest).map (pd :: ·)
    else (rpcSetLoop p state rest).map (pd :: ·)

/-- `bmcService.setPortPower` (`pkg/rpc/service.go:51`), the legacy
controller variant. -/
def rpcSetPortPower (dev : Device) (portIdx : String) (state : String) :
    Except String (Option Device) :=
  match goAtoi portIdx.data with
  | none => .error ("error getting integer value from port " ++ portIdx)
  | some p =>
    match rpcSetLoop p state dev.PortOverrides with
    | none => .ok none
    | some l => .ok (some { dev with PortOverrides := l })

theorem setPowerLoop_no_match (p : Int) (state : Bool)
    (l : List DevicePortOverrides) (h : ∀ pd ∈ l, (pd.PortIDX == p) = false) :
    setPowerLoop p state l = some l := by
  induction l with
  | nil => rfl
  | cons pd rest ih =>
    rw [setPowerLoop, h pd (List.mem_cons_self pd rest),
      ih fun x hx => h x (List.mem_cons_of_mem pd hx)]
    rfl

theorem rpcSetLoop_no_match (p : Int) (state : String)
    (l : List DevicePortOverrides) (h : ∀ pd ∈ l, (pd.PortIDX == p) = false) :
    rpcSetLoop p state l = some l := by
  induction l with
  | nil => rfl
  | cons pd rest ih =>
    rw [rpcSetLoop, h pd (List.mem_cons_self pd rest),
      ih fun x hx => h x (List.mem_cons_of_mem pd hx)]
    rfl

theorem setPowerLoop_append (p : Int) (state : Bool)
    (l1 l2 : List DevicePortOverrides)
    (h : ∀ pd ∈ l1, (pd.PortIDX == p) = false) :
    setPowerLoop p state (l1 ++ l2) = (setPowerLoop p state l2).map (l1 ++ ·) := by
  induction l1 with
  | nil => simp
  | cons pd rest ih =>
    rw [List.cons_append, setPowerLoop, h pd (List.mem_cons_self pd rest),
      ih fun x hx => h x (List.mem_cons_of_mem pd hx)]
    cases setPowerLoop p state l2 <;> rfl

theorem rpcSetLoop_append (p : Int) (state : String)
    (l1 l2 : List DevicePortOverrides)
    (h : ∀ pd ∈ l1, (pd.PortIDX == p) = false) :
    rpcSetLoop p state (l1 ++ l2) = (rpcSetLoop p state l2).map (l1 ++ ·) := by
  induction l1 with
  | nil => simp
  | cons pd rest ih =>
    rw [List.cons_append, rpcSetLoop, h pd (List.mem_cons_self pd rest),
      ih fun x hx => h x (List.mem_cons_of_mem pd hx)]
    cases rpcSetLoop p state l2 <;> rfl

/-- C4, counterexample.  The claim says that whenever the matching
port-override record does not already carry the requested mode, the call
sets that record's mode and submits the device in a single update.  The
legacy `bmcService.setPortPower` named by the claim's sources violates
this: on a device carrying two override records for port 3, the first in
mode `off` and the second in mode `auto`, a power-on call mutates the
first record but — because its `break` only leaves the `switch` — keeps
scanning, hits the second record already in `auto` and returns success
having submitted no update at all. -/
theorem c4_set_power_counterexample :
    (Device.mk "d" [⟨3, "off"⟩, ⟨3, "auto"⟩]).PortOverrides.find?
      (fun o => o.PortIDX == 3) = some ⟨3, "off"⟩ ∧
    rpcSetPortPower ⟨"d", [⟨3, "off"⟩, ⟨3, "auto"⟩]⟩ "3" "on" = .ok none := by
  decide

theorem setPowerLoop_split (p : Int) (state : Bool)
    (l1 l2 : List DevicePortOverrides) (pd : DevicePortOverrides)
    (hl1 : ∀ x ∈ l1, (x.PortIDX == p) = false)
    (hm : (pd.PortIDX == p) = true) :
    setPowerLoop p state (l1 ++ pd :: l2) =
      if pd.PoeMode = (if state then "auto" else "off") then none
      else some (l1 ++ { pd with PoeMode := if state then "auto" else "off" } :: l2) := by
  rw [setPowerLoop_append p state l1 _ hl1, setPowerLoop, hm]
  cases state
  · by_cases h : pd.PoeMode = "off" <;> simp [h]
  · by_cases h : pd.PoeMode = "auto" <;> simp [h]

theorem rpcSetLoop_split (p : Int) (state : Bool)
    (l1 l2 : List DevicePortOverrides) (pd : DevicePortOverrides)
    (hl1 : ∀ x ∈ l1, (x.PortIDX == p) = false)
    (hm : (pd.PortIDX == p) = true)
    (hl2 : ∀ x ∈ l2, (x.PortIDX == p) = false) :
    rpcSetLoop p (if state then "on" else "off") (l1 ++ pd :: l2) =
      if pd.PoeMode = (if state then "auto" else "off") then none
      else some (l1 ++ { pd with PoeMode := if state then "auto" else "off" } :: l2) := by
  rw [rpcSetLoop_append p _ l1 _ hl1, rpcSetLoop, hm]
  have hrest := rpcSetLoop_no_match p (if state then "on" else "off") l2 hl2
  cases state
  · simp only [Bool.false_eq_true, if_false] at hrest ⊢
    by_cases h : pd.PoeMode = "off" <;> simp [h, hrest]
  · simp only [if_true] at hrest ⊢
    by_cases h : pd.PoeMode = "auto" <;> simp [h, hrest]

/-- C4, amended.  For every successfully fetched device with a record
matching the requested port, `rpcService.setPower` behaves exactly as the
claim states: it returns success with no update when the first matching
record already carries the requested mode, and otherwise sets that
record's mode and submits the entire device once, after which a repeat
call with the same target performs no further write.  The legacy
`bmcService.setPortPower` satisfies the same contract provided at most
one override record carries the requested index (its switch-scoped
`break` keeps scanning, so a later duplicate record already in the
requested mode suppresses the update). -/
theorem c4_set_power_idempotent (dev : Device) (portIdx : String) (p : Int)
    (state : Bool) (pd : DevicePortOverrides)
    (hp : goAtoi portIdx.data = some p)
    (hfind : dev.PortOverrides.find? (fun o => o.PortIDX == p) = some pd) :
    (pd.PoeMode = (if state then "auto" else "off") →
      setPower dev portIdx state = .ok none) ∧
    (pd.PoeMode ≠ (if state then "auto" else "off") →
      ∃ d', setPower dev portIdx state = .ok (some d') ∧
        setPower d' portIdx state = .ok none) ∧
    ((dev.PortOverrides.filter (fun o => o.PortIDX == p)).length ≤ 1 →
      (pd.PoeMode = (if state then "auto" else "off") →
        rpcSetPortPower dev portIdx (if state then "on" else "off") = .ok none) ∧
      (pd.PoeMode ≠ (if state then "auto" else "off") →
        ∃ d', rpcSetPortPower dev portIdx (if state then "on" else "off") =
            .ok (some d') ∧
          rpcSetPortPower d' portIdx (if state then "on" else "off") = .ok none)) := by
  obtain ⟨hmatch, l1, l2, hsplit, hl1⟩ := List.find?_eq_some.mp hfind
  have hl1' : ∀ x ∈ l1, (x.PortIDX == p) = false := by
    intro x hx
    simpa using hl1 x hx
  refine ⟨?_, ?_, ?_⟩
  · intro hmode
    rw [setPower]
    simp only [hp]
    rw [hsplit, setPowerLoop_split p state l1 l2 pd hl1' hmatch, if_pos hmode]
  · intro hmode
    rw [setPower]
    simp only [hp]
    rw [hsplit, setPowerLoop_split p state l1 l2 pd hl1' hmatch, if_neg hmode]
    refine ⟨_, rfl, ?_⟩
    rw [setPower]
    simp only [hp]
    have hsnd := setPowerLoop_split p state l1 l2
      { pd with PoeMode := if state then "auto" else "off" } hl1' hmatch
    rw [hsnd, if_pos rfl]
  · intro huniq
    have hl2 : ∀ x ∈ l2, (x.PortIDX == p) = false := by
      intro x hx
      by_contra hxne
      have hxT : (x.PortIDX == p) = true := by
        cases hq : (x.PortIDX == p)
        · exact absurd hq hxne
        · rfl
      rw [hsplit, List.filter_append, List.filter_cons, hmatch] at huniq
      have h1 : (l1.filter (fun o => o.PortIDX == p)) = [] :=
        List.filter_eq_nil_iff.mpr (by intro a ha; simp [hl1' a ha])
      rw [h1] at huniq
      simp only [List.nil_append, if_true, List.length_cons] at huniq
      have hmem : x ∈ l2.filter (fun o => o.PortIDX == p) :=
        List.mem_filter.mpr ⟨hx, hxT⟩
      have hne : l2.filter (fun o => o.PortIDX == p) ≠ [] := by
        intro hnil
        rw [hnil] at hmem
        cases hmem
      have hpos : 0 < (l2.filter (fun o => o.PortIDX == p)).length :=
        List.length_pos_of_ne_nil hne
      omega
    constructor
    · intro hmode
      rw [rpcSetPortPower]
      simp only [hp]
      rw [hsplit, rpcSetLoop_split p state l1 l2 pd hl1' hmatch hl2, if_pos hmode]
    · intro hmode
      rw [rpcSetPortPower]
      simp only [hp]
      rw [hsplit, rpcSetLoop_split p state l1 l2 pd hl1' hmatch hl2, if_neg hmode]
      refine ⟨_, rfl, ?_⟩
      rw [rpcSetPortPower]
      simp only [hp]
      have hsnd := rpcSetLoop_split p state l1 l2
        { pd with PoeMode := if state then "auto" else "off" } hl1' hmatch hl2
      rw [hsnd, if_pos rfl]

/-- C4, witness: the amended theorem applied to a device whose port 3
override carries mode `off`, requesting power on: the first call submits
one update and the repeated call writes nothing. -/
theorem c4_set_power_idempotent_witness :
    ∃ d', setPower ⟨"d", [⟨3, "off"⟩]⟩ "3" true = .ok (some d') ∧
      setPower d' "3" true = .ok none :=
  (c4_set_power_idempotent ⟨"d", [⟨3, "off"⟩]⟩ "3" 3 true ⟨3, "off"⟩
    (by decide) (by decide)).2.1 (by decide)

/-- C10.  When the successfully fetched device has no override record for
the requested port, neither controller variant short-circuits: the scan
leaves the override list untouched and the function falls through to
`UpdateDevice`, submitting the entire unmodified device object and
returning success — a backend write that changes nothing. -/
theorem c10_set_power_no_match_still_writes (dev : Device) (portIdx : String)
    (p : Int) (state : Bool) (stateStr : String)
    (hp : goAtoi portIdx.data = some p)
    (hnone : dev.PortOverrides.find? (fun o => o.PortIDX == p) = none) :
    setPower dev portIdx state = .ok (some dev) ∧
    rpcSetPortPower dev portIdx stateStr = .ok (some dev) := by
  have hall : ∀ pd ∈ dev.PortOverrides, (pd.PortIDX == p) = false := by
    intro pd hpd
    have := List.find?_eq_none.mp hnone pd hpd
    simpa using this
  constructor
  · rw [setPower]
    simp only [hp]
    rw [setPowerLoop_no_match p state dev.PortOverrides hall]
  · rw [rpcSetPortPower]
    simp only [hp]
    rw [rpcSetLoop_no_match p stateStr dev.PortOverrides hall]

/-- C10, witness: a set on port 9 of a device that only has an override
for port 3 still submits the device object unchanged, in both variants. -/
theorem c10_set_power_no_match_still_writes_witness :
    setPower ⟨"d", [⟨3, "auto"⟩]⟩ "9" false = .ok (some ⟨"d", [⟨3, "auto"⟩]⟩) ∧
    rpcSetPortPower ⟨"d", [⟨3, "auto"⟩]⟩ "9" "off" =
      .ok (some ⟨"d", [⟨3, "auto"⟩]⟩) :=
  c10_set_power_no_match_still_writes ⟨"d", [⟨3, "auto"⟩]⟩ "9" 9 false "off"
    (by decide) (by decide)

/-! ## The port addressor (`models.GetPort`) -/

/-- The three failure messages of `models.GetPort`, as distinct values:
`X-Port header is required`, `invalid port number %q`, and
`invalid port number: port must be positive`. -/
inductive PortErr where
  | missingPort
  | invalidPort
  | nonPositivePort
deriving DecidableEq

/-- `models.Port`. -/
structure Port where
  Number : Int
deriving DecidableEq

/-- `models.GetPort`: Go's `Header.Get` returns the empty string for an
absent header, so an absent header and a literally empty value coincide
(`none` is modelled identically to `some ""`).  The emptiness check runs
before the trim; trimming and `Atoi` follow, then the positivity check. -/
def GetPort (header : Option String) : Except PortErr Port :=
  let portStr := header.getD ""
  if portStr = "" then .error .missingPort
  else
    match goAtoi (goTrimSpace portStr.data) with
    | none => .error .invalidPort
    | some n => if n < 1 then .error .nonPositivePort else .ok ⟨n⟩

/-- C6, counterexample.  The claim says a value that is blank after
trimming fails with the missing-port error.  The code checks emptiness
before trimming, so the all-whitespace value `" "` passes the emptiness
check, trims to the empty string, fails `Atoi` and is reported as an
invalid port instead. -/
theorem c6_get_port_counterexample :
    goTrimSpace " ".data = [] ∧
    GetPort (some " ") = .error .invalidPort ∧
    GetPort (some " ") ≠ .error .missingPort := by
  decide

/-- C6, amended.  The missing-port error is raised only for an absent
header or a literally empty value; a non-empty value is trimmed and
parsed, a positive parse returns the port unchanged, a failed parse (in
particular any non-numeric value, including a whitespace-only value that
trims to the empty string) yields the invalid-port error, and a parsed
value below 1 yields the non-positive-port error. -/
theorem c6_get_port (header : Option String) :
    ((header = none ∨ header = some "") → GetPort header = .error .missingPort) ∧
    (∀ s : String, header = some s → s ≠ "" →
      (∀ p : Int, goAtoi (goTrimSpace s.data) = some p → 1 ≤ p →
        GetPort header = .ok ⟨p⟩) ∧
      (goAtoi (goTrimSpace s.data) = none → GetPort header = .error .invalidPort) ∧
      (∀ p : Int, goAtoi (goTrimSpace s.data) = some p → p < 1 →
        GetPort header = .error .nonPositivePort)) := by
  constructor
  · intro h
    cases h with
    | inl h => rw [h]; rfl
    | inr h => rw [h]; rfl
  · intro s hs hne
    subst hs
    refine ⟨?_, ?_, ?_⟩
    · intro p hp hpos
      rw [GetPort]
      simp only [Option.getD_some]
      rw [if_neg hne, hp]
      simp only []
      rw [if_neg (by omega)]
    · intro hp
      rw [GetPort]
      simp only [Option.getD_some]
      rw [if_neg hne, hp]
    · intro p hp hneg
      rw [GetPort]
      simp only [Option.getD_some]
      rw [if_neg hne, hp]
      simp only []
      rw [if_pos hneg]

/-! ## The SSH-CLI power client (`pkg/client/unifi.go`) -/

/-- The two error returns of `Client.GetPortPowerState`: `port %d not
found in status` and `unknown power state: %s`. -/
inductive GetStateErr where
  | portNotFound (portID : Int)
  | unknownPowerState (flag : String)
deriving DecidableEq

/-- `Client.GetPortPowerState` (`pkg/client/unifi.go:170`) after a
successful fetch and parse: the SSH command execution and
`parsePoEStatus` are modelled by the parsed snapshot they produced (the
claim quantifies over successfully parsed snapshots).  The scan returns at
the first record whose port number matches; its power flag is lowered and
looked up in the four-state table, any other text is the unknown-state
error, and no match at all is the not-found error — unlike the silent
miss of the controller variant. -/
def GetPortPowerState (status : PoEStatus) (portID : Int) :
    Except GetStateErr PowerState :=
  match status.Ports.find? (fun port => port.Port == portID) with
  | some port =>
    let lower := String.mk (goToLower port.PoEPwr.data)
    if lower = "on" then .ok .PowerOn
    else if lower = "off" then .ok .PowerOff
    else if lower = "powering on" then .ok .PoweringOn
    else if lower = "powering off" then .ok .PoweringOff
    else .error (.unknownPowerState port.PoEPwr)
  | none => .error (.portNotFound portID)

/-- C7.  For every successfully parsed snapshot, the SSH-CLI
`GetPowerState` errors when no record carries the requested port number,
errors when the first matching record's lowered power flag is none of
`on`, `off`, `powering on`, `powering off`, and otherwise returns the
state given by that four-state table. -/
theorem c7_ssh_get_power_state (st : PoEStatus) (portID : Int) :
    (st.Ports.find? (fun port => port.Port == portID) = none →
      GetPortPowerState st portID = .error (.portNotFound portID)) ∧
    (∀ pd, st.Ports.find? (fun port => port.Port == portID) = some pd →
      (String.mk (goToLower pd.PoEPwr.data) ∉
          (["on", "off", "powering on", "powering off"] : List String) →
        GetPortPowerState st portID = .error (.unknownPowerState pd.PoEPwr)) ∧
      (String.mk (goToLower pd.PoEPwr.data) = "on" →
        GetPortPowerState st portID = .ok .PowerOn) ∧
      (String.mk (goToLower pd.PoEPwr.data) = "off" →
        GetPortPowerState st portID = .ok .PowerOff) ∧
      (String.mk (goToLower pd.PoEPwr.data) = "powering on" →
        GetPortPowerState st portID = .ok .PoweringOn) ∧
      (String.mk (goToLower pd.PoEPwr.data) = "powering off" →
        GetPortPowerState st portID = .ok .PoweringOff)) := by
  constructor
  · intro hnone
    rw [GetPortPowerState, hnone]
  · intro pd hfind
    refine ⟨?_, ?_, ?_, ?_, ?_⟩
    · intro hnotin
      simp only [List.mem_cons, List.not_mem_nil, or_false, not_or] at hnotin
      obtain ⟨h1, h2, h3, h4⟩ := hnotin
      rw [GetPortPowerState, hfind]
      simp only []
      rw [if_neg h1, if_neg h2, if_neg h3, if_neg h4]
    · intro h
      rw [GetPortPowerState, hfind]
      simp only []
      rw [if_pos h]
    · intro h
      have h1 : String.mk (goToLower pd.PoEPwr.data) ≠ "on" := by
        rw [h]; decide
      rw [GetPortPowerState, hfind]
      simp only []
      rw [if_neg h1, if_pos h]
    · intro h
      have h1 : String.mk (goToLower pd.PoEPwr.data) ≠ "on" := by rw [h]; decide
      have h2 : String.mk (goToLower pd.PoEPwr.data) ≠ "off" := by rw [h]; decide
      rw [GetPortPowerState, hfind]
      simp only []
      rw [if_neg h1, if_neg h2, if_pos h]
    · intro h
      have h1 : String.mk (goToLower pd.PoEPwr.data) ≠ "on" := by rw [h]; decide
      have h2 : String.mk (goToLower pd.PoEPwr.data) ≠ "off" := by rw [h]; decide
      have h3 : String.mk (goToLower pd.PoEPwr.data) ≠ "powering on" := by
        rw [h]; decide
      rw [GetPortPowerState, hfind]
      simp only []
      rw [if_neg h1, if_neg h2, if_neg h3, if_pos h]

/-! ## The RPC dispatchers (`pkg/api/service.go`)

The file declaring the payload types and the method-name constants is not
among the repository's files (only the dispatchers, their tests and this
spec consume them), so those declarations are modelled from the spec. -/

/-- Modelled from the spec: the method-name strings of the dispatcher's
method table (`power.get`, `power.set`, `boot.device`, `ping`); the
constants file is missing from the repository's staged sources. -/
def PowerGetMethod : String := "power.get"

/-- Modelled from the spec: see `PowerGetMethod`. -/
def PowerSetMethod : String := "power.set"

/-- Modelled from the spec: see `PowerGetMethod`. -/
def BootDeviceMethod : String := "boot.device"

/-- Modelled from the spec: see `PowerGetMethod`. -/
def PingMethod : String := "ping"

/-- Modelled from the spec: `PowerSetParams` carries the requested state
token. -/
structure PowerSetParams where
  State : String
deriving DecidableEq

/-- Modelled from the spec: `BootDeviceParams` carries {device,
persistent, efiBoot}. -/
structure BootDeviceParams where
  Device : String
  Persistent : Bool
  EFIBoot : Bool
deriving DecidableEq

/-- Modelled from the spec: `ResponseError` is the `{code, message}`
error object of the response. -/
structure ResponseError where
  Code : Int
  Message : String
deriving DecidableEq

/-- The values the SSH-variant dispatcher assigns to the result field:
plain strings (`on`/`off`/`unknown`/`pong`) and the boot-device
acknowledgment map, whose varying entries are its three parameter fields
(its `acknowledged`/`message` entries are fixed). -/
inductive RpcResult where
  | str (s : String)
  | bootAck (device : String) (persistent : Bool) (efiBoot : Bool)
deriving DecidableEq

/-- Modelled from the spec: `ResponsePayload` is `{id (echoed), host
(echoed), result?, error?}`; the optional fields are `Option`s and a
populated field is a `some`. -/
structure ResponsePayload where
  ID : Int
  Host : String
  Result : Option RpcResult
  Error : Option ResponseError
deriving DecidableEq

/-- Modelled from the spec: the request `{id, method, host, params}`.
The source decodes `params` generically and re-marshals/re-parses it per
method (spec §9), so the request value carries the outcome of each of
the two typed decodings; the marshal-error and unmarshal-error branches
of the source produce the same 400-response shape and are merged into
the error case of the corresponding decoding. -/
structure RpcRequest where
  ID : Int
  Host : String
  Method : String
  powerSetParams : Except String PowerSetParams
  bootParams : Except String BootDeviceParams
deriving DecidableEq

/-- The SSH power client behind the `PowerClient` interface, modelled by
the outcome each of its operations would return at a given port (the
operations are synchronous calls whose only interaction with the
dispatcher is their return value). -/
structure SshBackend where
  getOutcome : Int → Except String PowerState
  setOutcome : Int → PowerState → Except String Unit
  restartOutcome : Int → Except String Unit

/-- The backend invocations a dispatch issues, in order. -/
inductive BackendCall where
  | getPortPowerState (port : Int)
  | setPortPower (port : Int) (state : PowerState)
  | restartPortPower (port : Int)
deriving DecidableEq

/-- `rpcService.getPowerState` (`pkg/api/service.go:486`, SSH variant):
`on`/`off` for the two steady states and `unknown` for the transitional
ones, wrapping a backend failure. -/
def getPowerState (be : SshBackend) (portNum : Int) :
    Except String String × List BackendCall :=
  (match be.getOutcome portNum with
    | .error e => .error ("failed to get power state: " ++ e)
    | .ok .PowerOn => .ok "on"
    | .ok .PowerOff => .ok "off"
    | .ok _ => .ok "unknown",
   [.getPortPowerState portNum])

/-- `rpcService.setPowerState` (`pkg/api/service.go:503`, SSH variant):
`on` maps to the on state, `off` and `soft` to the off state, anything
else is the invalid-state error raised before any command is issued. -/
def setPowerState (be : SshBackend) (portNum : Int) (state : String) :
    Except String Unit × List BackendCall :=
  match state with
  | "on" =>
    (match be.setOutcome portNum .PowerOn with
      | .error e => .error ("failed to set power state: " ++ e)
      | .ok _ => .ok (),
     [.setPortPower portNum .PowerOn])
  | "off" =>
    (match be.setOutcome portNum .PowerOff with
      | .error e => .error ("failed to set power state: " ++ e)
      | .ok _ => .ok (),
     [.setPortPower portNum .PowerOff])
  | "soft" =>
    (match be.setOutcome portNum .PowerOff with
      | .error e => .error ("failed to set power state: " ++ e)
      | .ok _ => .ok (),
     [.setPortPower portNum .PowerOff])
  | _ => (.error ("invalid power state: " ++ state), [])

/-- `rpcService.restartPort` (`pkg/api/service.go:523`, SSH variant). -/
def restartPort (be : SshBackend) (portNum : Int) :
    Except String Unit × List BackendCall :=
  (match be.restartOutcome portNum with
    | .error e => .error ("failed to restart port: " ++ e)
    | .ok _ => .ok (),
   [.restartPortPower portNum])

/-- The method switch and status-code selection of
`rpcService.RpcHandler` (`pkg/api/service.go:552-654`, SSH variant),
after the port header has been extracted and the body decoded: the
response payload starts as the echoed `{id, host}`, each branch fills at
most one of result/error, and the HTTP status mirrors the error code when
an error is set, 200 otherwise.  The returned triple is (status,
payload, backend calls issued). -/
def rpcSwitch (be : SshBackend) (portNum : Int) (req : RpcRequest) :
    ResponsePayload × List BackendCall :=
  let rp0 : ResponsePayload := ⟨req.ID, req.Host, none, none⟩
  if req.Method = PowerGetMethod then
    match getPowerState be portNum with
    | (.error e, cs) =>
      ({ rp0 with Error := some ⟨500, "error getting power state: " ++ e⟩ }, cs)
    | (.ok state, cs) => ({ rp0 with Result := some (.str state) }, cs)
  else if req.Method = PowerSetMethod then
    match req.powerSetParams with
    | .error e =>
      ({ rp0 with Error := some ⟨400, "error parsing PowerSetParams: " ++ e⟩ }, [])
    | .ok p =>
      if p.State = "on" ∨ p.State = "off" ∨ p.State = "soft" then
        match setPowerState be portNum p.State with
        | (.error e, cs) =>
          ({ rp0 with Error := some ⟨500, "error setting power state: " ++ e⟩ }, cs)
        | (.ok _, cs) => (rp0, cs)
      else if p.State = "reset" ∨ p.State = "cycle" then
        match restartPort be portNum with
        | (.error e, cs) =>
          ({ rp0 with Error := some ⟨500, "error power cycling port: " ++ e⟩ }, cs)
        | (.ok _, cs) => (rp0, cs)
      else ({ rp0 with Error := some ⟨400, "invalid power state: " ++ p.State⟩ }, [])
  else if req.Method = BootDeviceMethod then
    match req.bootParams with
    | .error e =>
      ({ rp0 with Error := some ⟨400, "error parsing BootDeviceParams: " ++ e⟩ }, [])
    | .ok p => ({ rp0 with Result := some (.bootAck p.Device p.Persistent p.EFIBoot) }, [])
  else if req.Method = PingMethod then
    ({ rp0 with Result := some (.str "pong") }, [])
  else
    ({ rp0 with Error := some ⟨404, "unknown method: " ++ req.Method⟩ }, [])

/-- The status-code selection that follows the switch: the HTTP status
mirrors the error code when an error was set, and is 200 otherwise. -/
def rpcDispatch (be : SshBackend) (portNum : Int) (req : RpcRequest) :
    Int × ResponsePayload × List BackendCall :=
  let out := rpcSwitch be portNum req
  match out.1.Error with
  | some e => (e.Code, out.1, out.2)
  | none => (200, out.1, out.2)

/-- The outcomes of the controller-variant `rpcService.RpcHandler`
(`pkg/api/service.go:338`): `exited` models `log.Fatalf`, which prints
and calls `os.Exit(1)` before any response is written (the `Fprintf` and
`WriteHeader` calls after it are dead code); a `response` carries the
HTTP status, the marshalled payload, and whether plain text was written
into the body before the payload (the `boot.device` branch does that). -/
inductive CtrlOutcome where
  | exited
  | response (status : Int) (rp : ResponsePayload) (textBeforePayload : Bool)
deriving DecidableEq

/-- The controller-variant request: its dispatcher does not re-marshal
`params` but type-asserts the generically decoded value
(`req.Params.(PowerSetParams)`), so the request carries each assertion's
outcome. -/
structure CtrlRequest where
  ID : Int
  Host : String
  Method : String
  powerSetAssert : Option PowerSetParams
  bootAssert : Option BootDeviceParams
deriving DecidableEq

/-- The method switch of the controller-variant `rpcService.RpcHandler`
(`pkg/api/service.go:356-427`), after header validation and body
decoding, wired to the controller power functions modelled above on the
successfully fetched device.  Success paths never call `WriteHeader`, so
the payload goes out with status 200; every error path and failed type
assertion runs `log.Fatalf` and exits; the default branch writes status
404 followed by the payload `{id, host}` with neither result nor error
populated. -/
def ctrlRpcDispatch (dev : Device) (portIdx : String) (req : CtrlRequest) :
    CtrlOutcome :=
  let rp0 : ResponsePayload := ⟨req.ID, req.Host, none, none⟩
  if req.Method = PowerGetMethod then
    match GetPower dev portIdx with
    | .error _ => .exited
    | .ok state => .response 200 { rp0 with Result := some (.str state) } false
  else if req.Method = PowerSetMethod then
    match req.powerSetAssert with
    | none => .exited
    | some p =>
      match setPortPower dev portIdx p.State with
      | .error _ => .exited
      | .ok _ => .response 200 rp0 false
  else if req.Method = BootDeviceMethod then
    match req.bootAssert with
    | none => .exited
    | some _ => .response 200 rp0 true
  else if req.Method = PingMethod then
    .response 200 { rp0 with Result := some (.str "pong") } false
  else
    .response 404 rp0 false

/-- A backend whose three operations all succeed, used to instantiate the
dispatcher theorems at concrete inputs. -/
def beAllOk : SshBackend :=
  ⟨fun _ => .ok .PowerOn, fun _ _ => .ok (), fun _ => .ok ()⟩

/-- C5.  In the SSH-variant dispatcher's power.set handling, `soft`
produces exactly the same dispatch outcome as `off` (a single
`SetPortPower` call with the off state), `reset` and `cycle` each produce
a single `RestartPortPower` call and never a `SetPortPower` one, and any
other token yields the 400 invalid-state response with no backend call
issued. -/
theorem c5_power_set_normalization (be : SshBackend) (portNum : Int)
    (id : Int) (host : String) (bp : Except String BootDeviceParams)
    (s : String) (hs : s ∉ (["on", "off", "soft", "reset", "cycle"] : List String)) :
    rpcDispatch be portNum ⟨id, host, PowerSetMethod, .ok ⟨"soft"⟩, bp⟩ =
      rpcDispatch be portNum ⟨id, host, PowerSetMethod, .ok ⟨"off"⟩, bp⟩ ∧
    (rpcDispatch be portNum ⟨id, host, PowerSetMethod, .ok ⟨"soft"⟩, bp⟩).2.2 =
      [.setPortPower portNum .PowerOff] ∧
    (rpcDispatch be portNum ⟨id, host, PowerSetMethod, .ok ⟨"reset"⟩, bp⟩).2.2 =
      [.restartPortPower portNum] ∧
    (rpcDispatch be portNum ⟨id, host, PowerSetMethod, .ok ⟨"cycle"⟩, bp⟩).2.2 =
      [.restartPortPower portNum] ∧
    rpcDispatch be portNum ⟨id, host, PowerSetMethod, .ok ⟨s⟩, bp⟩ =
      (400, ⟨id, host, none, some ⟨400, "invalid power state: " ++ s⟩⟩, []) := by
  simp only [List.mem_cons, List.not_mem_nil, or_false, not_or] at hs
  obtain ⟨hs1, hs2, hs3, hs4, hs5⟩ := hs
  refine ⟨?_, ?_, ?_, ?_, ?_⟩
  · cases hbe : be.setOutcome portNum .PowerOff <;>
      simp [rpcDispatch, rpcSwitch, setPowerState, PowerGetMethod, PowerSetMethod, hbe]
  · cases hbe : be.setOutcome portNum .PowerOff <;>
      simp [rpcDispatch, rpcSwitch, setPowerState, PowerGetMethod, PowerSetMethod, hbe]
  · cases hbe : be.restartOutcome portNum <;>
      simp [rpcDispatch, rpcSwitch, restartPort, PowerGetMethod, PowerSetMethod, hbe]
  · cases hbe : be.restartOutcome portNum <;>
      simp [rpcDispatch, rpcSwitch, restartPort, PowerGetMethod, PowerSetMethod, hbe]
  · simp [rpcDispatch, rpcSwitch, PowerGetMethod, PowerSetMethod, hs1, hs2, hs3, hs4, hs5]

/-- C5, witness: the theorem applied at the always-successful backend and
the unknown state token `bogus`. -/
theorem c5_power_set_normalization_witness :
    rpcDispatch beAllOk 1 ⟨1, "h", PowerSetMethod, .ok ⟨"bogus"⟩, .ok ⟨"", false, false⟩⟩ =
      (400, ⟨1, "h", none, some ⟨400, "invalid power state: " ++ "bogus"⟩⟩, []) :=
  (c5_power_set_normalization beAllOk 1 1 "h" (.ok ⟨"", false, false⟩) "bogus"
    (by decide)).2.2.2.2

/-- C8, counterexample.  The claim says every success path populates the
result field.  A successful power.set dispatch populates neither result
nor error: the branch sets `rp.Error` only on failure and never sets
`rp.Result`, so the encoded response carries just the echoed id and
host. -/
theorem c8_power_set_success_counterexample :
    rpcDispatch beAllOk 1 ⟨7, "h", PowerSetMethod, .ok ⟨"on"⟩, .ok ⟨"", false, false⟩⟩ =
      (200, ⟨7, "h", none, none⟩, [.setPortPower 1 .PowerOn]) ∧
    (ResponsePayload.mk 7 "h" none none).Result = none ∧
    (ResponsePayload.mk 7 "h" none none).Error = none := by
  decide

/-- C8, amended.  For every request reaching the SSH-variant dispatcher's
method switch, at most one of result/error is populated; every failure
path populates the error and leaves the result empty; every success path
populates the result — except power.set, which never populates the
result, so its success paths populate neither field. -/
theorem c8_response_field_exclusivity (be : SshBackend) (portNum : Int)
    (req : RpcRequest) :
    ¬ ((rpcDispatch be portNum req).2.1.Result.isSome = true ∧
       (rpcDispatch be portNum req).2.1.Error.isSome = true) ∧
    ((rpcDispatch be portNum req).2.1.Error = none →
      (rpcDispatch be portNum req).2.1.Result.isSome = true ∨
        req.Method = PowerSetMethod) ∧
    (req.Method = PowerSetMethod → (rpcDispatch be portNum req).2.1.Result = none) := by
  have hpay : (rpcDispatch be portNum req).2.1 = (rpcSwitch be portNum req).1 := by
    rw [rpcDispatch]
    cases (rpcSwitch be portNum req).1.Error <;> rfl
  rw [hpay]
  rw [rpcSwitch]
  by_cases h1 : req.Method = PowerGetMethod
  · rw [if_pos h1]
    have hne : req.Method ≠ PowerSetMethod := by rw [h1]; decide
    rcases hget : getPowerState be portNum with ⟨res, cs⟩
    cases res <;> simp [hne]
  · rw [if_neg h1]
    by_cases h2 : req.Method = PowerSetMethod
    · rw [if_pos h2]
      cases hps : req.powerSetParams with
      | error e => simp [h2]
      | ok p =>
        by_cases hst : p.State = "on" ∨ p.State = "off" ∨ p.State = "soft"
        · rcases hset : setPowerState be portNum p.State with ⟨res, cs⟩
          cases res <;> simp [hst, hset, h2]
        · by_cases hrc : p.State = "reset" ∨ p.State = "cycle"
          · rcases hres : restartPort be portNum with ⟨res, cs⟩
            cases res <;> simp [hst, hrc, hres, h2]
          · simp [hst, hrc, h2]
    · rw [if_neg h2]
      by_cases h3 : req.Method = BootDeviceMethod
      · rw [if_pos h3]
        cases req.bootParams <;> simp [h2]
      · rw [if_neg h3]
        by_cases h4 : req.Method = PingMethod
        · rw [if_pos h4]
          simp [h2]
        · rw [if_neg h4]
          simp [h2]

/-- C9, counterexample.  The claim says an unknown method yields a 404
response whose error field is populated in both dispatcher variants its
sources name.  The controller variant's default branch only writes the
404 status: the payload it marshals is the echoed `{id, host}` with the
error (and result) fields empty. -/
theorem c9_ctrl_unknown_method_counterexample :
    ctrlRpcDispatch ⟨"d", []⟩ "1" ⟨1, "h", "bogus", none, none⟩ =
      .response 404 ⟨1, "h", none, none⟩ false ∧
    (ResponsePayload.mk 1 "h" none none).Error = none := by
  decide

/-- C9, amended.  For every request whose method is none of power.get,
power.set, boot.device, ping: the SSH-variant dispatcher responds with
status 404 and a body whose error field is populated and whose result
field is absent, while the controller variant responds with status 404
and a body in which neither the error nor the result field is
populated. -/
theorem c9_unknown_method_404 (be : SshBackend) (portNum : Int)
    (req : RpcRequest) (dev : Device) (portIdx : String) (creq : CtrlRequest)
    (hm : req.Method ∉
      ([PowerGetMethod, PowerSetMethod, BootDeviceMethod, PingMethod] : List String))
    (hcm : creq.Method ∉
      ([PowerGetMethod, PowerSetMethod, BootDeviceMethod, PingMethod] : List String)) :
    (rpcDispatch be portNum req).1 = 404 ∧
    (rpcDispatch be portNum req).2.1.Error =
      some ⟨404, "unknown method: " ++ req.Method⟩ ∧
    (rpcDispatch be portNum req).2.1.Result = none ∧
    ctrlRpcDispatch dev portIdx creq =
      .response 404 ⟨creq.ID, creq.Host, none, none⟩ false := by
  simp only [List.mem_cons, List.not_mem_nil, or_false, not_or] at hm hcm
  obtain ⟨hm1, hm2, hm3, hm4⟩ := hm
  obtain ⟨hc1, hc2, hc3, hc4⟩ := hcm
  have hsw : rpcSwitch be portNum req =
      (⟨req.ID, req.Host, none, some ⟨404, "unknown method: " ++ req.Method⟩⟩, []) := by
    rw [rpcSwitch]
    rw [if_neg hm1, if_neg hm2, if_neg hm3, if_neg hm4]
  refine ⟨?_, ?_, ?_, ?_⟩
  · rw [rpcDispatch, hsw]
  · rw [rpcDispatch, hsw]
  · rw [rpcDispatch, hsw]
  · rw [ctrlRpcDispatch]
    rw [if_neg hc1, if_neg hc2, if_neg hc3, if_neg hc4]

/-- C9, witness: the theorem applied at the method token `bogus` against
both dispatcher variants. -/
theorem c9_unknown_method_404_witness :
    (rpcDispatch beAllOk 1 ⟨1, "h", "bogus", .error "x", .error "x"⟩).1 = 404 ∧
    (rpcDispatch beAllOk 1 ⟨1, "h", "bogus", .error "x", .error "x"⟩).2.1.Error =
      some ⟨404, "unknown method: " ++ "bogus"⟩ ∧
    (rpcDispatch beAllOk 1 ⟨1, "h", "bogus", .error "x", .error "x"⟩).2.1.Result = none ∧
    ctrlRpcDispatch ⟨"d", []⟩ "1" ⟨1, "h", "bogus", none, none⟩ =
      .response 404 ⟨1, "h", none, none⟩ false :=
  c9_unknown_method_404 beAllOk 1 ⟨1, "h", "bogus", .error "x", .error "x"⟩
    ⟨"d", []⟩ "1" ⟨1, "h", "bogus", none, none⟩ (by decide) (by decide)

end UnifiRpc
